import Mathlib

/-!
Verification of the traffic aggregation engine of the network-monitor
repository, shallowly embedded from the Go sources.

Source files embedded here:
- internal/analysis/analysis.go : packet aggregation, interval processing,
  stop signal, speed computation.
- cmd/monitor main loop and the monitor notifyThresholdExceeded routine :
  top-talker ranking over an interval snapshot.

Modelling conventions:
- Byte counters (int64 in Go) are modelled as Int; packet and capture
  lengths (Go int, always non-negative slice lengths or capture sizes)
  are modelled as Nat.
- The per-interval map (Go map from string to TrafficData pointer) is
  modelled as an association list in first-seen insertion order; the Go
  map never exposes its order, and where an order matters (ranking) the
  iteration order is an explicit input, since Go map iteration order is
  unspecified.
- float64 arithmetic of CalculateSpeedMbps is modelled over the rationals;
  every value the claims mention (8, 0) is exactly representable.
- Go channel close semantics: closing an already-closed channel panics at
  runtime; this is modelled by an Except value.
-/

namespace NetworkMonitor

/-- IPv4 layer of a captured frame as gopacket decodes it: source address
in string form, length of the payload slice and length of the header
contents slice actually captured. -/
structure IPv4Layer where
  srcIP : String
  payloadLen : Nat
  contentsLen : Nat
  deriving DecidableEq, Repr

/-- IPv6 layer of a captured frame: source address, length of the payload
slice (derived from the header payload-length field, which excludes the
fixed header and may be zero) and length of the header contents slice. -/
structure IPv6Layer where
  srcIP : String
  payloadLen : Nat
  contentsLen : Nat
  deriving DecidableEq, Repr

/-- Capture metadata of a frame; length is the total frame length the
capture reports. In gopacket this is packet.Metadata().Length. -/
structure CaptureMetadata where
  length : Nat
  deriving DecidableEq, Repr

/-- A captured frame as seen by aggregatePacket: it may carry an IPv4
layer, an IPv6 layer, and capture metadata. -/
structure Packet where
  ipv4 : Option IPv4Layer
  ipv6 : Option IPv6Layer
  metadata : Option CaptureMetadata
  deriving DecidableEq, Repr

/-- The per-interval accumulator map from source address to cumulative
byte count, modelled as an association list in first-seen order. -/
abbrev AccMap := List (String × Int)

/-- Extraction of (source address, packet size) from a frame, mirroring
the body of Aggregator.aggregatePacket (analysis.go lines 90-117): the
IPv4 branch is tried first and uses payload length plus captured header
bytes; otherwise the IPv6 branch uses payload plus header bytes but
unconditionally replaces that with the capture metadata length when
metadata is present; a frame with neither layer yields no address and
size zero. -/
def packetInfo (p : Packet) : Option String × Nat :=
  match p.ipv4 with
  | some ip4 => (some ip4.srcIP, ip4.payloadLen + ip4.contentsLen)
  | none =>
    match p.ipv6 with
    | some ip6 =>
      let sizeFromLayers := ip6.payloadLen + ip6.contentsLen
      let size :=
        match p.metadata with
        | some md => md.length
        | none => sizeFromLayers
      (some ip6.srcIP, size)
    | none => (none, 0)

/-- Read-modify-write of one address in the accumulator, mirroring the
map lookup, lazy entry creation and Bytes increment of aggregatePacket
(analysis.go lines 122-130). A new address is appended, so the list
order is first-seen order. -/
def addEntry : AccMap → String → Int → AccMap
  | [], a, sz => [(a, sz)]
  | e :: rest, a, sz =>
    if e.1 = a then (e.1, e.2 + sz) :: rest else e :: addEntry rest a sz

/-- One step of Aggregator.aggregatePacket (analysis.go lines 90-130):
discard the frame when no IP source address was found or the extracted
size is zero, otherwise add the size to the address counter. The Go
function returns no error in any case. -/
def aggregatePacket (m : AccMap) (p : Packet) : AccMap :=
  let info := packetInfo p
  match info.1 with
  | none => m
  | some src => if info.2 = 0 then m else addEntry m src (info.2 : Int)

/-- The byte count a frame contributes, or none when the frame is
discarded by aggregatePacket. -/
def acceptedBytes (p : Packet) : Option Int :=
  match (packetInfo p).1 with
  | none => none
  | some _ => if (packetInfo p).2 = 0 then none else some ((packetInfo p).2 : Int)

/-- Feeding a sequence of packets to the accumulator, as the ingestion
loop processPackets does one packet at a time. -/
def feed (m : AccMap) (ps : List Packet) : AccMap :=
  ps.foldl aggregatePacket m

/-- Total bytes recorded in an accumulator map. -/
def sumBytes (m : AccMap) : Int :=
  (m.map fun e => e.2).sum

/-- Result of one window cycle of Aggregator.processInterval. -/
structure IntervalResult where
  snapshot : AccMap
  totalBytes : Int
  newAcc : AccMap
  deriving DecidableEq, Repr

/-- The swap-and-reset part of Aggregator.processInterval (analysis.go
lines 149-160): under the lock, copy every entry into a fresh snapshot
while summing the bytes, then replace the live map with a new empty
map. -/
def processInterval (m : AccMap) : IntervalResult :=
  let st := m.foldl
    (fun (acc : AccMap × Int) e => (acc.1 ++ [(e.1, e.2)], acc.2 + e.2))
    (([] : AccMap), (0 : Int))
  { snapshot := st.1, totalBytes := st.2, newAcc := [] }

/-- A run of consecutive windows: each window feeds its packets into the
accumulator left by the previous boundary swap, then the boundary swap
emits a snapshot and resets the accumulator. Returns the emitted
snapshots and the final live map. -/
def runWindows : AccMap → List (List Packet) → List AccMap × AccMap
  | m, [] => ([], m)
  | m, w :: ws =>
    let step := processInterval (feed m w)
    let rest := runWindows step.newAcc ws
    (step.snapshot :: rest.1, rest.2)

/-- Go runtime semantics of closing a channel: closing an open channel
succeeds, closing an already-closed channel panics with the message
close of closed channel. The panic is modelled as an Except error. -/
def goChanClose (alreadyClosed : Bool) : Except String Bool :=
  if alreadyClosed then Except.error "close of closed channel" else Except.ok true

/-- The aggregator state an external caller can affect: whether stopChan
has been closed and whether the ticker is still active. -/
structure AggState where
  stopClosed : Bool
  tickerActive : Bool
  deriving DecidableEq, Repr

/-- Aggregator.Stop (analysis.go lines 64-68): unconditionally performs
close on stopChan, then stops the ticker. There is no sync.Once or
guard, so the close panics whenever stopChan is already closed. -/
def Stop (s : AggState) : Except String AggState :=
  match goChanClose s.stopClosed with
  | Except.ok _ => Except.ok { stopClosed := true, tickerActive := false }
  | Except.error e => Except.error e

/-- The packet-source-closed branch of processPackets (analysis.go lines
79-84): when the packet source channel is observed closed, the loop
performs close on stopChan and returns. Like Stop, the close is
unguarded. -/
def sourceClosedHandler (s : AggState) : Except String AggState :=
  match goChanClose s.stopClosed with
  | Except.ok _ => Except.ok { s with stopClosed := true }
  | Except.error e => Except.error e

/-- Outcome of the result hand-off at the end of processInterval. -/
inductive SendOutcome where
  | delivered
  | discarded
  deriving DecidableEq, Repr

/-- The select statement ending processInterval (analysis.go lines
176-191), given whether stopChan is closed, whether a consumer is ready
to receive on resultsChan, and the uniform random pick Go makes when
both the send case and the stop case are ready. When stopChan is open,
a ready receiver takes the send case and otherwise the default branch
falls through to an unconditional blocking send, which delivers once a
consumer arrives; when stopChan is closed, the stop case is always
ready, so the snapshot is discarded unless a receiver is ready and the
random pick lands on the send case. -/
def sendResult (stopClosed receiverReady pickSend : Bool) : SendOutcome :=
  if stopClosed then
    if receiverReady then
      if pickSend then SendOutcome.delivered else SendOutcome.discarded
    else SendOutcome.discarded
  else SendOutcome.delivered

/-- Observable effect of the final flush the run loop performs on the
stop signal. -/
structure FlushResult where
  snapshot : AccMap
  newAcc : AccMap
  outcome : SendOutcome
  resultsClosed : Bool
  deriving DecidableEq, Repr

/-- The stop branch of Aggregator.run (analysis.go lines 133-146): on
the stop signal the loop calls processInterval one final time and
returns, upon which the deferred close of resultsChan runs. During this
final call stopChan is closed, so the hand-off select of processInterval
runs with stopClosed set. -/
def finalFlush (m : AccMap) (receiverReady pickSend : Bool) : FlushResult :=
  let step := processInterval m
  { snapshot := step.snapshot
    newAcc := step.newAcc
    outcome := sendResult true receiverReady pickSend
    resultsClosed := true }

/-- Seconds represented by a Go time.Duration of d nanoseconds, as the
exact rational that float64 Seconds approximates. -/
def durationSeconds (d : Int) : ℚ :=
  (d : ℚ) / 1000000000

/-- CalculateSpeedMbps (analysis.go lines 206-212): bytes over a
duration of d nanoseconds converted to megabits per second, returning
zero when the duration in seconds is not positive. float64 arithmetic is
modelled over the rationals. -/
def CalculateSpeedMbps (bytes : Int) (d : Int) : ℚ :=
  let intervalSeconds := durationSeconds d
  if intervalSeconds ≤ 0 then 0
  else ((bytes : ℚ) * 8) / (intervalSeconds * 1000000)

/-- Configuration consumed by NewAggregator. -/
structure ConfigForAggregator where
  IntervalSeconds : Int
  deriving DecidableEq, Repr

/-- The configuration handling of NewAggregator (analysis.go lines
40-61): a non-positive IntervalSeconds is overwritten with 5 in the
caller-supplied struct, and the ticker interval is that many seconds
(returned here in nanoseconds). Construction never fails; the Go
function has no error return. -/
def NewAggregator (cfg : ConfigForAggregator) : ConfigForAggregator × Int :=
  let cfg := if cfg.IntervalSeconds ≤ 0 then { IntervalSeconds := 5 } else cfg
  (cfg, cfg.IntervalSeconds * 1000000000)

/-- Descending byte-count order on talker entries. -/
def talkerGE (a b : String × Int) : Prop :=
  b.2 ≤ a.2

instance : DecidableRel talkerGE :=
  fun a b => inferInstanceAs (Decidable (b.2 ≤ a.2))

instance : IsTotal (String × Int) talkerGE :=
  ⟨fun a b => le_total b.2 a.2⟩

instance : IsTrans (String × Int) talkerGE :=
  ⟨fun _ _ _ h1 h2 => le_trans h2 h1⟩

/-- Sorting the talker slice by byte count descending, as the sort.Slice
call with comparator bytes at i greater than bytes at j does in the main
result loop and in notifyThresholdExceeded. For slices this short Go
uses insertion sort, so the stable insertion sort is a faithful model of
the executed algorithm; for ties the Go documentation guarantees nothing
beyond the comparator. -/
def sortTalkersDesc (l : AccMap) : AccMap :=
  l.insertionSort talkerGE

/-- The top-talker computation of the main result loop (and of
notifyThresholdExceeded): the interval snapshot map is ranged over to
build a slice, the slice is sorted by byte count descending, and the
first TopN elements (or all of them when the slice is shorter) are
taken. The input list here is the slice in Go map iteration order,
which is an arbitrary permutation of the snapshot entries: Go map
iteration order is unspecified and randomized. -/
def topTalkers (entries : AccMap) (n : Nat) : AccMap :=
  let numTalkers := if entries.length < n then entries.length else n
  (sortTalkersDesc entries).take numTalkers

/-! Helper lemmas about the accumulator and the interval swap. -/

theorem sumBytes_nil : sumBytes [] = 0 := rfl

theorem sumBytes_cons (e : String × Int) (m : AccMap) :
    sumBytes (e :: m) = e.2 + sumBytes m := by
  simp [sumBytes]

theorem sumBytes_addEntry (m : AccMap) (a : String) (sz : Int) :
    sumBytes (addEntry m a sz) = sumBytes m + sz := by
  induction m with
  | nil => simp [addEntry, sumBytes]
  | cons e rest ih =>
    by_cases h : e.1 = a
    · simp [addEntry, h, sumBytes_cons]
      ring
    · simp [addEntry, h, sumBytes_cons, ih]
      ring

theorem sumBytes_aggregatePacket (m : AccMap) (p : Packet) :
    sumBytes (aggregatePacket m p) = sumBytes m + (acceptedBytes p).getD 0 := by
  unfold aggregatePacket acceptedBytes
  cases h : (packetInfo p).1 with
  | none => simp [h]
  | some src =>
    by_cases hz : (packetInfo p).2 = 0
    · simp [h, hz]
    · simp [h, hz, sumBytes_addEntry]

theorem feed_nil (m : AccMap) : feed m [] = m := rfl

theorem feed_cons (m : AccMap) (p : Packet) (ps : List Packet) :
    feed m (p :: ps) = feed (aggregatePacket m p) ps := rfl

theorem sum_filterMap_acceptedBytes (ps : List Packet) :
    (ps.filterMap acceptedBytes).sum
      = (ps.map fun p => (acceptedBytes p).getD 0).sum := by
  induction ps with
  | nil => rfl
  | cons p ps ih =>
    cases h : acceptedBytes p <;>
      simp [List.filterMap_cons, h, ih]

theorem sumBytes_feed (ps : List Packet) :
    ∀ m : AccMap, sumBytes (feed m ps) = sumBytes m + (ps.filterMap acceptedBytes).sum := by
  induction ps with
  | nil => intro m; simp [feed_nil]
  | cons p ps ih =>
    intro m
    cases h : acceptedBytes p with
    | none =>
      have hs := sumBytes_aggregatePacket m p
      rw [h] at hs
      simp [feed_cons, ih, hs, List.filterMap_cons, h]
    | some v =>
      have hs := sumBytes_aggregatePacket m p
      rw [h] at hs
      simp [feed_cons, ih, hs, List.filterMap_cons, h]
      ring

theorem processInterval_fold (m : AccMap) :
    ∀ (acc : AccMap) (t : Int),
      m.foldl (fun (acc : AccMap × Int) e => (acc.1 ++ [(e.1, e.2)], acc.2 + e.2)) (acc, t)
        = (acc ++ m, t + sumBytes m) := by
  induction m with
  | nil => intro acc t; simp [sumBytes]
  | cons e rest ih =>
    intro acc t
    simp only [List.foldl_cons, ih, sumBytes_cons, Prod.mk.injEq]
    constructor
    · simp
    · ring

theorem processInterval_snapshot (m : AccMap) :
    (processInterval m).snapshot = m := by
  unfold processInterval
  simp [processInterval_fold]

theorem processInterval_totalBytes (m : AccMap) :
    (processInterval m).totalBytes = sumBytes m := by
  unfold processInterval
  simp [processInterval_fold]

theorem processInterval_newAcc (m : AccMap) :
    (processInterval m).newAcc = [] := rfl

theorem runWindows_map_sumBytes (ws : List (List Packet)) :
    ((runWindows [] ws).1).map sumBytes
      = ws.map fun w => (w.filterMap acceptedBytes).sum := by
  induction ws with
  | nil => rfl
  | cons w ws ih =>
    simp only [runWindows, processInterval_newAcc, List.map_cons, ih,
      processInterval_snapshot]
    rw [sumBytes_feed w []]
    simp [sumBytes]

theorem flatten_filterMap_sum (ws : List (List Packet)) :
    ((ws.map fun w => (w.filterMap acceptedBytes).sum)).sum
      = ((ws.flatten).filterMap acceptedBytes).sum := by
  induction ws with
  | nil => rfl
  | cons w ws ih =>
    simp [List.filterMap_append, ih]

/-! Claim theorems. -/

/-- Claim C1: conservation of bytes. For every division of the packet
stream into consecutive windows, the snapshot emitted at each window
boundary swap has byte total equal to the sum of the counted byte
lengths of the packets accepted in that window (discarded non-IP and
zero-length frames contribute nothing, being filtered out of
acceptedBytes), and the totals of all consecutive snapshots sum to the
total over all accepted packets ever fed. -/
theorem conservation_of_bytes (ws : List (List Packet)) :
    ((runWindows [] ws).1).map sumBytes
        = ws.map (fun w => (w.filterMap acceptedBytes).sum)
    ∧ (((runWindows [] ws).1).map sumBytes).sum
        = ((ws.flatten).filterMap acceptedBytes).sum := by
  refine ⟨runWindows_map_sumBytes ws, ?_⟩
  rw [runWindows_map_sumBytes ws, flatten_filterMap_sum ws]

/-- Claim C2: swap-and-reset postcondition. For every accumulator state,
one window cycle emits as snapshot a copy of exactly the current
per-address map, reports its byte total, and leaves the live accumulator
replaced by a new empty map. -/
theorem swap_and_reset (m : AccMap) :
    (processInterval m).snapshot = m
    ∧ (processInterval m).totalBytes = sumBytes m
    ∧ (processInterval m).newAcc = [] :=
  ⟨processInterval_snapshot m, processInterval_totalBytes m, processInterval_newAcc m⟩

/-- Claim C3: the claim states that triggering the stop signal twice
never panics. The code contradicts it: Stop performs an unguarded close
of stopChan, and in Go closing an already-closed channel panics. On a
freshly constructed aggregator (stopChan open, ticker active), calling
Stop and then Stop again evaluates to the runtime panic close of closed
channel instead of a second clean state. -/
theorem stop_twice_panics :
    (Stop { stopClosed := false, tickerActive := true }).bind Stop
        = Except.error "close of closed channel"
    ∧ (Stop { stopClosed := false, tickerActive := true }).bind sourceClosedHandler
        = Except.error "close of closed channel" := by
  constructor <;> rfl

/-- Claim C4 counterexample: the claim states that on the stop signal
the final window cycle result is delivered on the result channel before
the channel is closed. At the concrete state where the accumulator holds
partial data for one address and no consumer is ready to receive, the
final flush runs its hand-off select with stopChan closed: the stop case
is the only ready case, so the snapshot is discarded, and the channel is
then closed without that result ever being delivered. -/
theorem final_flush_dropped_cex :
    (finalFlush [("10.0.0.1", 300)] false false).outcome = SendOutcome.discarded
    ∧ (finalFlush [("10.0.0.1", 300)] false false).outcome ≠ SendOutcome.delivered
    ∧ (finalFlush [("10.0.0.1", 300)] false false).snapshot = [("10.0.0.1", 300)]
    ∧ (finalFlush [("10.0.0.1", 300)] false false).resultsClosed = true := by
  refine ⟨rfl, by decide, ?_, rfl⟩
  exact processInterval_snapshot _

/-- Claim C4 amended: receiving the stop signal causes exactly one more
window cycle — the snapshot captures whatever partial (possibly zero)
data accumulated and the accumulator is reset — after which the result
channel is closed; but the cycle result is delivered only when a
consumer is ready to receive and the select race between the send case
and the already-closed stop channel resolves to the send; otherwise the
result is discarded. -/
theorem final_flush_spec (m : AccMap) (receiverReady pickSend : Bool) :
    (finalFlush m receiverReady pickSend).snapshot = m
    ∧ (finalFlush m receiverReady pickSend).newAcc = []
    ∧ (finalFlush m receiverReady pickSend).resultsClosed = true
    ∧ ((finalFlush m receiverReady pickSend).outcome = SendOutcome.delivered
        ↔ receiverReady = true ∧ pickSend = true)
    ∧ (finalFlush [] receiverReady pickSend).snapshot = []
    ∧ (processInterval ([] : AccMap)).totalBytes = 0 := by
  refine ⟨processInterval_snapshot m, rfl, rfl, ?_, processInterval_snapshot [], rfl⟩
  cases receiverReady <;> cases pickSend <;>
    simp [finalFlush, sendResult]

/-- Claim C5: length extraction. A frame processed on the IPv6 path
(no IPv4 layer) whose capture metadata is present is counted with the
metadata total frame length, overriding the header-derived payload plus
header size; in particular the frame whose IPv6 payload-length field is
zero (payload slice empty, 40 header bytes captured) but whose metadata
reports 1200 total bytes is counted as 1200, not 0. A frame carrying an
IPv4 layer is counted as IP payload length plus captured IP header
bytes. -/
theorem length_extraction :
    (∀ (p : Packet) (l6 : IPv6Layer) (md : CaptureMetadata),
        p.ipv4 = none → p.ipv6 = some l6 → p.metadata = some md →
          (packetInfo p).2 = md.length)
    ∧ (∀ (p : Packet) (l4 : IPv4Layer),
        p.ipv4 = some l4 → (packetInfo p).2 = l4.payloadLen + l4.contentsLen)
    ∧ (packetInfo
        { ipv4 := none
          ipv6 := some { srcIP := "fe80::1", payloadLen := 0, contentsLen := 40 }
          metadata := some { length := 1200 } }).2 = 1200 := by
  refine ⟨?_, ?_, rfl⟩
  · intro p l6 md h4 h6 hm
    simp [packetInfo, h4, h6, hm]
  · intro p l4 h4
    simp [packetInfo, h4]

/-- Witness for claim C5 at concrete frames: an IPv6 frame with zeroed
payload-length field and metadata 1200 counts as 1200 bytes, and an
IPv4 frame with 50 payload bytes and 20 header bytes counts as 70. -/
theorem length_extraction_witness :
    (packetInfo
        { ipv4 := none
          ipv6 := some { srcIP := "fe80::1", payloadLen := 0, contentsLen := 40 }
          metadata := some { length := 1200 } }).2 = 1200
    ∧ (packetInfo
        { ipv4 := some { srcIP := "10.0.0.1", payloadLen := 50, contentsLen := 20 }
          ipv6 := none
          metadata := some { length := 74 } }).2 = 70 :=
  ⟨length_extraction.1
      { ipv4 := none
        ipv6 := some { srcIP := "fe80::1", payloadLen := 0, contentsLen := 40 }
        metadata := some { length := 1200 } }
      { srcIP := "fe80::1", payloadLen := 0, contentsLen := 40 }
      { length := 1200 } rfl rfl rfl,
    length_extraction.2.1
      { ipv4 := some { srcIP := "10.0.0.1", payloadLen := 50, contentsLen := 20 }
        ipv6 := none
        metadata := some { length := 74 } }
      { srcIP := "10.0.0.1", payloadLen := 50, contentsLen := 20 } rfl⟩

/-- Claim C6: discard is a no-op. A frame with no IPv4 and no IPv6
layer, or a frame whose extracted byte length is zero, leaves the
accumulator map completely unchanged; aggregatePacket is a total
function, so no error is possible. -/
theorem discard_is_noop (m : AccMap) (p : Packet)
    (h : (p.ipv4 = none ∧ p.ipv6 = none) ∨ (packetInfo p).2 = 0) :
    aggregatePacket m p = m := by
  rcases h with ⟨h4, h6⟩ | hz
  · simp [aggregatePacket, packetInfo, h4, h6]
  · unfold aggregatePacket
    cases hsrc : (packetInfo p).1 with
    | none => simp [hsrc]
    | some src => simp [hsrc, hz]

/-- Witness for claim C6: a non-IP frame and an IPv4 frame of extracted
length zero both leave a concrete one-entry accumulator unchanged. -/
theorem discard_is_noop_witness :
    aggregatePacket [("10.0.0.9", 5)]
        { ipv4 := none, ipv6 := none, metadata := some { length := 60 } }
      = [("10.0.0.9", 5)]
    ∧ aggregatePacket [("10.0.0.9", 5)]
        { ipv4 := some { srcIP := "10.0.0.7", payloadLen := 0, contentsLen := 0 }
          ipv6 := none, metadata := none }
      = [("10.0.0.9", 5)] :=
  ⟨discard_is_noop [("10.0.0.9", 5)]
      { ipv4 := none, ipv6 := none, metadata := some { length := 60 } }
      (Or.inl ⟨rfl, rfl⟩),
    discard_is_noop [("10.0.0.9", 5)]
      { ipv4 := some { srcIP := "10.0.0.7", payloadLen := 0, contentsLen := 0 }
        ipv6 := none, metadata := none }
      (Or.inr rfl)⟩

/-- Claim C7: rate computation. For every byte count b and duration of
d nanoseconds, the speed is (b times 8) divided by (seconds times one
million) megabits per second when the duration is positive, and 0 when
the duration is not positive; rate of one million bytes over one second
is exactly 8, and rate of zero bytes over one second is 0. -/
theorem rate_computation (b d : Int) :
    (0 < d → CalculateSpeedMbps b d = ((b : ℚ) * 8) / (durationSeconds d * 1000000))
    ∧ (d ≤ 0 → CalculateSpeedMbps b d = 0)
    ∧ CalculateSpeedMbps 1000000 1000000000 = 8
    ∧ CalculateSpeedMbps 0 1000000000 = 0 := by
  refine ⟨?_, ?_, ?_, ?_⟩
  · intro hd
    have hpos : 0 < durationSeconds d := by
      unfold durationSeconds
      have : (0 : ℚ) < (d : ℚ) := by exact_mod_cast hd
      positivity
    simp [CalculateSpeedMbps, not_le.mpr hpos]
  · intro hd
    have hnp : durationSeconds d ≤ 0 := by
      unfold durationSeconds
      have hq : (d : ℚ) ≤ 0 := by exact_mod_cast hd
      have h9 : (0 : ℚ) < 1000000000 := by norm_num
      exact div_nonpos_iff.mpr (Or.inr ⟨hq, le_of_lt h9⟩)
    simp [CalculateSpeedMbps, hnp]
  · norm_num [CalculateSpeedMbps, durationSeconds]
  · norm_num [CalculateSpeedMbps, durationSeconds]

/-- Witness for claim C7 at concrete inputs: 250000 bytes over two
seconds follows the formula, and a zero duration yields rate 0. -/
theorem rate_computation_witness :
    (0 < (2000000000 : Int)
      ∧ CalculateSpeedMbps 250000 2000000000
          = ((250000 : ℚ) * 8) / (durationSeconds 2000000000 * 1000000))
    ∧ ((0 : Int) ≤ 0 ∧ CalculateSpeedMbps 250000 0 = 0) :=
  ⟨⟨by norm_num, (rate_computation 250000 2000000000).1 (by norm_num)⟩,
    ⟨le_refl 0, (rate_computation 250000 0).2.1 (le_refl 0)⟩⟩

/-- Claim C9: for every configuration with non-positive IntervalSeconds,
NewAggregator does not fail: it overwrites IntervalSeconds with 5 in the
caller-visible configuration and constructs the aggregator with a
five-second (five billion nanosecond) ticker interval. -/
theorem new_aggregator_defaults_interval (cfg : ConfigForAggregator)
    (h : cfg.IntervalSeconds ≤ 0) :
    NewAggregator cfg = ({ IntervalSeconds := 5 }, 5000000000) := by
  simp [NewAggregator, h]

/-- Witness for claim C9: the configuration with IntervalSeconds zero is
non-positive and is rewritten to 5 with a five-second interval. -/
theorem new_aggregator_defaults_interval_witness :
    ({ IntervalSeconds := 0 } : ConfigForAggregator).IntervalSeconds ≤ 0
    ∧ NewAggregator { IntervalSeconds := 0 } = ({ IntervalSeconds := 5 }, 5000000000) :=
  ⟨by norm_num, new_aggregator_defaults_interval { IntervalSeconds := 0 } (by norm_num)⟩

/-- Claim C10: an IPv6 frame whose capture metadata is present but
reports total length 0 is discarded — the metadata length overrides the
header-derived length unconditionally, so the accumulator is unchanged
even when the captured IPv6 header and payload byte counts are
non-zero. -/
theorem ipv6_zero_metadata_discard (m : AccMap) (addr : String) (pl cl : Nat) :
    aggregatePacket m
        { ipv4 := none
          ipv6 := some { srcIP := addr, payloadLen := pl, contentsLen := cl }
          metadata := some { length := 0 } } = m
    ∧ acceptedBytes
        { ipv4 := none
          ipv6 := some { srcIP := addr, payloadLen := pl, contentsLen := cl }
          metadata := some { length := 0 } } = none := by
  constructor <;> simp [aggregatePacket, acceptedBytes, packetInfo]

/-- Claim C8 counterexample: the claim states that ties are broken by
first-seen insertion order within the snapshot. In the code the ranking
input is a slice built by ranging over a Go map, whose iteration order
is unspecified and randomized, and the sort only compares byte counts.
With addresses A then B first seen in that order, both at 100 bytes, a
legitimate map iteration order presents B first; the computed ranking is
then B before A, not the first-seen order A before B. -/
theorem topTalkers_tie_order_cex :
    topTalkers [("B", 100), ("A", 100)] 2 = [("B", 100), ("A", 100)]
    ∧ topTalkers [("B", 100), ("A", 100)] 2 ≠ [("A", 100), ("B", 100)] := by
  constructor
  · rfl
  · decide

/-- Claim C8 amended: topTalkers returns the first min(n, size) entries
of the slice sorted purely by byte count descending, so every returned
count is at least every omitted count and all entries are returned when
n exceeds the snapshot size; the order among tied byte counts is
unspecified (it depends on the Go map iteration order fed to an
unstable sort), not first-seen insertion order. For the example
snapshot with A at 500, B at 1500 and C at 1000 and n = 2, every
iteration order yields B then C. -/
theorem topTalkers_ranking (entries : AccMap) (n : Nat) :
    topTalkers entries n = (sortTalkersDesc entries).take (min n entries.length)
    ∧ (topTalkers entries n).length = min n entries.length
    ∧ List.Sorted talkerGE (topTalkers entries n)
    ∧ (sortTalkersDesc entries).Perm entries
    ∧ (entries.length ≤ n → (topTalkers entries n).Perm entries)
    ∧ (∀ p : AccMap, p.Perm [("A", (500 : Int)), ("B", 1500), ("C", 1000)] →
        topTalkers p 2 = [("B", 1500), ("C", 1000)]) := by
  have hsortlen : (sortTalkersDesc entries).length = entries.length :=
    List.length_insertionSort talkerGE entries
  have h1 : topTalkers entries n = (sortTalkersDesc entries).take (min n entries.length) := by
    unfold topTalkers
    have hmin : (if entries.length < n then entries.length else n) = min n entries.length := by
      split <;> omega
    rw [hmin]
  have hexample : ∀ q ∈ ([("A", (500 : Int)), ("B", 1500), ("C", 1000)] : AccMap).permutations',
      topTalkers q 2 = [("B", 1500), ("C", 1000)] := by decide
  refine ⟨h1, ?_, ?_, List.perm_insertionSort talkerGE entries, ?_,
    fun p hp => hexample p (List.mem_permutations'.mpr hp)⟩
  · rw [h1, List.length_take, hsortlen]
    omega
  · rw [h1]
    exact List.Pairwise.sublist (List.take_sublist _ _)
      (List.sorted_insertionSort talkerGE entries)
  · intro hle
    rw [h1]
    have htake : (sortTalkersDesc entries).take (min n entries.length)
        = sortTalkersDesc entries := by
      apply List.take_of_length_le
      omega
    rw [htake]
    exact List.perm_insertionSort talkerGE entries

/-- Witness for claim C8 at concrete inputs: a one-entry snapshot with
n = 3 returns all entries, and the example snapshot iterated as C, A, B
still ranks B then C. -/
theorem topTalkers_ranking_witness :
    ([("A", (500 : Int))] : AccMap).length ≤ 3
    ∧ (topTalkers [("A", (500 : Int))] 3).Perm [("A", (500 : Int))]
    ∧ topTalkers [("C", (1000 : Int)), ("A", 500), ("B", 1500)] 2
        = [("B", 1500), ("C", 1000)] :=
  ⟨by decide,
    (topTalkers_ranking [("A", (500 : Int))] 3).2.2.2.2.1 (by decide),
    (topTalkers_ranking [] 0).2.2.2.2.2
      [("C", (1000 : Int)), ("A", 500), ("B", 1500)]
      (List.mem_permutations'.mp (by decide))⟩

end NetworkMonitor
